import Mathlib

/-!
Verification of the two-stage birthday pipeline of the carddav-birthdays
service: `parseBirthdayVCard` (extract a birthday fact from a raw vCard
blob) and `generateBirthdayIcs` (serialize the facts to an iCalendar
document).  The Go source is embedded shallowly: strings are handled as
`String` / `List Char`, the Go standard-library calls (`strings.Split`,
`strings.TrimSpace`, `strings.HasPrefix`, `strings.TrimPrefix`,
`strings.Contains`, `strings.Index`, `strings.ReplaceAll`, `time.Parse`
restricted to the three layouts the program uses) are modelled by
structurally recursive Lean functions with the same behaviour, and the
`fmt.Printf` diagnostic is modelled as an explicit list of emitted
messages.
-/

/-- Calendar date, modelling the external library type `date.Date`
(a plain year/month/day value; `date.FromTime` / `Date.ToStdTime`
preserve the calendar-date components). -/
structure Date where
  year : Nat
  month : Nat
  day : Nat
deriving DecidableEq, Repr

/-- The `Birthday` struct of the source. -/
structure Birthday where
  UID : String
  Date : Date
  FullName : String
deriving DecidableEq, Repr

/-! ### Go string primitives, modelled on `List Char` -/

/-- Model of `strings.HasPrefix l p`. -/
def isPre : List Char → List Char → Bool
  | [], _ => true
  | _ :: _, [] => false
  | p :: ps, c :: cs => p == c && isPre ps cs

/-- Returns the remainder of `l` after the leading
occurrence of `p`, when `p` is a prefix of `l` (the combination of
`strings.HasPrefix` and `strings.TrimPrefix`). -/
def dropPre? : List Char → List Char → Option (List Char)
  | [], l => some l
  | _ :: _, [] => none
  | p :: ps, c :: cs => if p == c then dropPre? ps cs else none

/-- Leftmost occurrence of the (non-empty) separator `sep` in `l`:
returns the part before it and the part after it.  `strings.Contains`
is `(findSplit sep l).isSome`, and `strings.Split` producing exactly two
parts means the remainder holds no further occurrence. -/
def findSplit (sep : List Char) : List Char → Option (List Char × List Char)
  | [] => none
  | c :: cs =>
    match dropPre? sep (c :: cs) with
    | some rest => some ([], rest)
    | none =>
      match findSplit sep cs with
      | some (pre, post) => some (c :: pre, post)
      | none => none

/-- The white-space set of `unicode.IsSpace` restricted to the
characters that can occur here (the Latin-1 range). -/
def isGoSpace (c : Char) : Bool :=
  c == ' ' || c == '\t' || c == '\n' || c == '\x0b' || c == '\x0c' ||
  c == '\r' || c == '\x85' || c == '\xa0'

/-- Model of `strings.TrimSpace`. -/
def goTrimSpace (l : List Char) : List Char :=
  ((l.dropWhile isGoSpace).reverse.dropWhile isGoSpace).reverse

/-- Model of `strings.Split vcard "\n"`. -/
def splitLines : List Char → List (List Char)
  | [] => [[]]
  | c :: cs =>
    let r := splitLines cs
    if c == '\n' then [] :: r
    else
      match r with
      | [] => [[c]]
      | h :: t => (c :: h) :: t

/-! ### `time.Parse`, restricted to the three layouts the program uses -/

/-- Numeric value of a decimal digit character. -/
def digVal (c : Char) : Nat := c.toNat - 48

/-- Value of a fixed-width run of decimal digits. -/
def digitsToNat (l : List Char) : Nat := l.foldl (fun a c => 10 * a + digVal c) 0

/-- Gregorian leap-year rule, as used by `time.Parse` when validating
the day of the month. -/
def isLeap (y : Nat) : Bool := y % 4 == 0 && (y % 100 != 0 || y % 400 == 0)

/-- Length of a month, as used by `time.Parse` day-of-month validation. -/
def daysInMonth (y m : Nat) : Nat :=
  match m with
  | 1 => 31 | 2 => if isLeap y then 29 else 28 | 3 => 31 | 4 => 30
  | 5 => 31 | 6 => 30 | 7 => 31 | 8 => 31
  | 9 => 30 | 10 => 31 | 11 => 30 | 12 => 31
  | _ => 0

/-- Range validation performed by `time.Parse` after reading the
numeric fields: month in 1..12 and day in 1..(days of that month). -/
def mkValidDate (y m d : Nat) : Option Date :=
  if 1 ≤ m && m ≤ 12 && 1 ≤ d && d ≤ daysInMonth y m then some ⟨y, m, d⟩
  else none

/-- Model of `time.Parse "20060102" s`: exactly eight decimal digits
(4-digit year, 2-digit month, 2-digit day), fully consuming the input,
followed by range validation. -/
def goParseCompact (l : List Char) : Option Date :=
  match l with
  | [y1, y2, y3, y4, m1, m2, d1, d2] =>
    if [y1, y2, y3, y4, m1, m2, d1, d2].all Char.isDigit then
      mkValidDate (digitsToNat [y1, y2, y3, y4]) (digitsToNat [m1, m2])
        (digitsToNat [d1, d2])
    else none
  | _ => none

/-- Model of `time.Parse "2006-01-02" s`. -/
def goParseHyphen (l : List Char) : Option Date :=
  match l with
  | [y1, y2, y3, y4, '-', m1, m2, '-', d1, d2] =>
    if [y1, y2, y3, y4, m1, m2, d1, d2].all Char.isDigit then
      mkValidDate (digitsToNat [y1, y2, y3, y4]) (digitsToNat [m1, m2])
        (digitsToNat [d1, d2])
    else none
  | _ => none

/-- Model of `time.Parse "2006/01/02" s`. -/
def goParseSlash (l : List Char) : Option Date :=
  match l with
  | [y1, y2, y3, y4, '/', m1, m2, '/', d1, d2] =>
    if [y1, y2, y3, y4, m1, m2, d1, d2].all Char.isDigit then
      mkValidDate (digitsToNat [y1, y2, y3, y4]) (digitsToNat [m1, m2])
        (digitsToNat [d1, d2])
    else none
  | _ => none

/-- The `formats` slice `{"20060102", "2006-01-02", "2006/01/02"}`. -/
def formats : List (List Char → Option Date) :=
  [goParseCompact, goParseHyphen, goParseSlash]

/-- The `for _, format := range formats { ... break }` loop: first
format that parses successfully wins, remaining formats are not tried. -/
def firstParse : List (List Char → Option Date) → List Char → Option Date
  | [], _ => none
  | f :: fs, s =>
    match f s with
    | some d => some d
    | none => firstParse fs s

/-- Trying the three date formats in their fixed priority order. -/
def parseDateFormats (s : List Char) : Option Date := firstParse formats s

/-! ### The extractor `parseBirthdayVCard` -/

/-- The local variables of `parseBirthdayVCard`'s scan loop
(`name`, `fullName`, `uid`, `birthdayDate`), together with the stream
of diagnostic messages emitted by `fmt.Printf`. -/
structure PState where
  name : List Char
  fullName : List Char
  uid : List Char
  birthdayDate : Option Date
  diags : List (List Char)
deriving DecidableEq, Repr

def initState : PState := ⟨[], [], [], none, []⟩

/-- The `bdayStr` computed for a (trimmed) line inside the
`strings.HasPrefix(line, "BDAY")` branch: the part after the single
`";VALUE=date:"` separator when the line contains exactly one, else the
part after the `"BDAY:"` head, else empty. -/
def lineBdayValue (line : List Char) : List Char :=
  match findSplit ";VALUE=date:".data line with
  | some (_, post) =>
    if (findSplit ";VALUE=date:".data post).isNone then post else []
  | none =>
    match dropPre? "BDAY:".data line with
    | some rest => rest
    | none => []

/-- The diagnostic text of `fmt.Printf("failed to parse birthday date: %s\n", bdayStr)`. -/
def failMsg (bdayStr : List Char) : List Char :=
  "failed to parse birthday date: ".data ++ bdayStr ++ ['\n']

/-- The `N:` / `FN:` / `UID:` updates of one loop iteration of
`parseBirthdayVCard` (each an independent `HasPrefix` + `TrimPrefix`). -/
def updateNames (s : PState) (line : List Char) : PState :=
  let s :=
    match dropPre? "N:".data line with
    | some rest => { s with name := rest }
    | none => s
  let s :=
    match dropPre? "FN:".data line with
    | some rest => { s with fullName := rest }
    | none => s
  match dropPre? "UID:".data line with
  | some rest => { s with uid := rest }
  | none => s

/-- The `BDAY` branch of one loop iteration: extract the raw value,
truncate it at the first `'T'`, try the three formats in order, and emit
the diagnostic when `birthdayDate` is still nil afterwards. -/
def updateBday (s : PState) (line : List Char) : PState :=
  if isPre "BDAY".data line then
    let bdayStr := lineBdayValue line
    if bdayStr.isEmpty then s
    else
      -- Remove timezone info if present: truncate at the first 'T'.
      let bdayStr := bdayStr.takeWhile (· != 'T')
      let s :=
        match parseDateFormats bdayStr with
        | some d => { s with birthdayDate := some d }
        | none => s
      if s.birthdayDate.isNone then { s with diags := s.diags ++ [failMsg bdayStr] }
      else s
  else s

/-- One iteration of the line-scan loop of `parseBirthdayVCard`: trim
the line, then run the four field checks in the source's order. -/
def stepLine (s : PState) (rawLine : List Char) : PState :=
  let line := goTrimSpace rawLine
  updateBday (updateNames s line) line

/-- The state after scanning every line of the raw record. -/
def parseVCardState (vcard : String) : PState :=
  (splitLines vcard.data).foldl stepLine initState

/-- The function `parseBirthdayVCard`: emit a fact only when a date was parsed and at
least one name field is non-empty; display name prefers `FN` over `N`. -/
def parseBirthdayVCard (vcard : String) : Option Birthday :=
  let final := parseVCardState vcard
  match final.birthdayDate with
  | some bd =>
    if final.name ≠ [] ∨ final.fullName ≠ [] then
      let displayName := if final.fullName = [] then final.name else final.fullName
      some { UID := final.uid.asString, Date := bd, FullName := displayName.asString }
    else none
  | none => none

/-! ### The serializer `generateBirthdayIcs` -/

/-- Zero-pad a number to two digits (the `01` / `02` layout fields of
`Format "20060102"`). -/
def pad2 (n : Nat) : String := if n < 10 then "0" ++ Nat.repr n else Nat.repr n

/-- Zero-pad a number to four digits (the `2006` layout field). -/
def pad4 (n : Nat) : String :=
  if n < 10 then "000" ++ Nat.repr n
  else if n < 100 then "00" ++ Nat.repr n
  else if n < 1000 then "0" ++ Nat.repr n
  else Nat.repr n

/-- Model of `birthday.Date.ToStdTime().Format("20060102")`. -/
def fmtCompactDate (d : Date) : String := pad4 d.year ++ pad2 d.month ++ pad2 d.day

/-- Modelled from the external library: `date.Date.String()` renders the
calendar date in ISO year-month-day form (digits and hyphens; the exact
text is not relied on by any claim). -/
def dateToString (d : Date) : String :=
  pad4 d.year ++ "-" ++ pad2 d.month ++ "-" ++ pad2 d.day

/-- Model of `strings.ReplaceAll(name, " ", "")`: with a single-character
pattern this removes every space. -/
def removeSpaces (l : List Char) : List Char := l.filter (· != ' ')

/-- The `UID` field value of an event:
`fmt.Sprintf("%s-birthday-%d", strings.ReplaceAll(b.FullName, " ", ""), b.Date.ToStdTime().Year())`. -/
def eventUID (b : Birthday) : String :=
  (removeSpaces b.FullName.data).asString ++ "-birthday-" ++ Nat.repr b.Date.year

/-- The eight lines written for one birthday inside the loop of
`generateBirthdayIcs`. -/
def eventBlock (b : Birthday) : String :=
  "BEGIN:VEVENT\r\n" ++
  ("UID:" ++ eventUID b ++ "\r\n") ++
  ("DTSTART;VALUE=DATE:" ++ fmtCompactDate b.Date ++ "\r\n") ++
  "RRULE:FREQ=YEARLY\r\n" ++
  ("SUMMARY:" ++ b.FullName ++ "\x27s Birthday\r\n") ++
  ("DESCRIPTION:" ++ b.FullName ++ " born on " ++ dateToString b.Date ++ "\r\n") ++
  "TRANSP:TRANSPARENT\r\n" ++
  "END:VEVENT\r\n"

/-- The fixed four-line iCalendar header. -/
def icsHeader : String :=
  "BEGIN:VCALENDAR\r\n" ++ "VERSION:2.0\r\n" ++
  "PRODID:-//CardDAV Birthdays//EN\r\n" ++ "CALSCALE:GREGORIAN\r\n"

/-- The fixed one-line iCalendar footer. -/
def icsFooter : String := "END:VCALENDAR\r\n"

/-- The function `generateBirthdayIcs`: header, one event block per birthday in
input order (a string-builder fold), footer.  `today` is accepted but
never read. -/
def generateBirthdayIcs (birthdays : List Birthday) (today : Date) : String :=
  let sb := icsHeader
  let sb := birthdays.foldl (fun sb b => sb ++ eventBlock b) sb
  sb ++ icsFooter

/-! ### Helper lemmas: string concatenation and the fold structure -/

lemma strAppendAssoc (a b c : String) : a ++ b ++ c = a ++ (b ++ c) := by
  apply String.ext
  simp

lemma joinFoldl (l : List String) : ∀ init : String,
    l.foldl (· ++ ·) init = init ++ String.join l := by
  induction l with
  | nil => intro init; simp [String.join]
  | cons a as ih =>
    intro init
    have h1 : String.join (a :: as) = a ++ String.join as := by
      show (a :: as).foldl (· ++ ·) "" = _
      rw [List.foldl_cons, ih]
      simp
    rw [List.foldl_cons, ih, h1]
    apply String.ext
    simp

/-- The string-builder loop of `generateBirthdayIcs` appends exactly one
event block per input fact, in input order. -/
lemma genEqJoin (birthdays : List Birthday) (today : Date) :
    generateBirthdayIcs birthdays today =
      icsHeader ++ String.join (birthdays.map eventBlock) ++ icsFooter := by
  show (birthdays.foldl (fun sb b => sb ++ eventBlock b) icsHeader) ++ icsFooter = _
  rw [← List.foldl_map eventBlock (· ++ ·) birthdays icsHeader, joinFoldl]

/-! ### Helper lemmas: the extractor's state transitions -/

lemma updateNames_birthdayDate (s : PState) (line : List Char) :
    (updateNames s line).birthdayDate = s.birthdayDate := by
  unfold updateNames
  rcases dropPre? "N:".data line with _ | r1 <;>
    rcases dropPre? "FN:".data line with _ | r2 <;>
      rcases dropPre? "UID:".data line with _ | r3 <;> rfl

lemma updateNames_diags (s : PState) (line : List Char) :
    (updateNames s line).diags = s.diags := by
  unfold updateNames
  rcases dropPre? "N:".data line with _ | r1 <;>
    rcases dropPre? "FN:".data line with _ | r2 <;>
      rcases dropPre? "UID:".data line with _ | r3 <;> rfl

/-- A birthday line whose (truncated) value parses always overwrites the
stored date, whatever was there before. -/
lemma updateBday_overwrite (s : PState) (line : List Char) (d : Date)
    (hb : isPre "BDAY".data line = true)
    (hv : (lineBdayValue line).isEmpty = false)
    (hp : parseDateFormats ((lineBdayValue line).takeWhile (· != 'T')) = some d) :
    (updateBday s line).birthdayDate = some d := by
  have hv' : lineBdayValue line ≠ [] := by simpa using hv
  simp [updateBday, hb, hv', hp]

/-- When the stored date is present and the line's value is empty or
fails every format, the `BDAY` branch leaves the date and the diagnostic
stream untouched. -/
lemma updateBday_keep (s : PState) (line : List Char) (d : Date)
    (hd : s.birthdayDate = some d)
    (hfail : (lineBdayValue line).isEmpty = true ∨
      parseDateFormats ((lineBdayValue line).takeWhile (· != 'T')) = none) :
    updateBday s line = s := by
  unfold updateBday
  rcases hb : isPre "BDAY".data line with _ | _
  · rfl
  · rcases hfail with h | h
    · have h' : lineBdayValue line = [] := by simpa using h
      simp [h']
    · rcases hv : (lineBdayValue line).isEmpty with _ | _
      · have hv' : lineBdayValue line ≠ [] := by simpa using hv
        simp [hv', h, hd]
      · have h' : lineBdayValue line = [] := by simpa using hv
        simp [h']

/-- The stored date never goes from present back to absent. -/
lemma updateBday_isSome (s : PState) (line : List Char)
    (hd : s.birthdayDate.isSome = true) :
    (updateBday s line).birthdayDate.isSome = true := by
  unfold updateBday
  rcases hb : isPre "BDAY".data line with _ | _
  · exact hd
  · rcases hv : (lineBdayValue line).isEmpty with _ | _
    · have hv' : lineBdayValue line ≠ [] := by simpa using hv
      rcases hp : parseDateFormats ((lineBdayValue line).takeWhile (· != 'T')) with _ | d
      · rcases h : s.birthdayDate with _ | d0
        · rw [h] at hd; cases hd
        · simp [hv', hp, h]
      · simp [hv', hp]
    · have h' : lineBdayValue line = [] := by simpa using hv
      simp [h', hd]

/-! ### Helper lemmas: line terminators of the serialized document -/

/-- Scan a character list remembering the previous character; `false`
exactly when some `'\n'` is not immediately preceded by `'\r'`. -/
def noBareLFAux : Char → List Char → Bool
  | _, [] => true
  | prev, c :: cs => (c != '\n' || prev == '\r') && noBareLFAux c cs

/-- Every line of `s` (in the LF-delimited sense) ends with CR+LF:
no bare line-feed anywhere, and the document ends with `"\r\n"` so the
final line is terminated too. -/
def crlfTerminated (s : String) : Bool :=
  noBareLFAux ' ' s.data && isPre ['\n', '\r'] s.data.reverse

/-- The scan `noBareLFAux` holds for every starting character. -/
def lfRobust (l : List Char) : Prop := ∀ q : Char, noBareLFAux q l = true

/-- No line-feed at all in the character list. -/
def noLF (l : List Char) : Prop := ∀ c ∈ l, c ≠ '\n'

lemma noBareLFAux_append (a : List Char) : ∀ (p : Char) (b : List Char),
    noBareLFAux p (a ++ b) = (noBareLFAux p a && noBareLFAux (a.getLastD p) b) := by
  induction a with
  | nil => intro p b; simp [noBareLFAux]
  | cons c cs ih =>
    intro p b
    show ((c != '\n' || p == '\r') && noBareLFAux c (cs ++ b))
      = ((c != '\n' || p == '\r') && noBareLFAux c cs && noBareLFAux ((c :: cs).getLastD p) b)
    rw [ih c b, List.getLastD_cons, Bool.and_assoc]

lemma lfRobust_append {a b : List Char} (ha : lfRobust a) (hb : lfRobust b) :
    lfRobust (a ++ b) := by
  intro q
  rw [noBareLFAux_append, ha q, hb (a.getLastD q), Bool.and_self]

lemma lfRobust_of_noLF {l : List Char} (h : noLF l) : lfRobust l := by
  induction l with
  | nil => intro q; rfl
  | cons c cs ih =>
    intro q
    have hc : c ≠ '\n' := h c (List.mem_cons_self c cs)
    have := ih (fun x hx => h x (List.mem_cons_of_mem c hx))
    simp [noBareLFAux, hc, this c]

lemma lfRobust_of_head {l : List Char} (h1 : l.head? ≠ some '\n')
    (h2 : noBareLFAux ' ' l = true) : lfRobust l := by
  cases l with
  | nil => intro q; rfl
  | cons c cs =>
    intro q
    have hc : c ≠ '\n' := by intro hh; apply h1; simp [hh]
    simp only [noBareLFAux, Bool.and_eq_true] at h2 ⊢
    exact ⟨by simp [hc], h2.2⟩

lemma noLF_append {a b : List Char} (ha : noLF a) (hb : noLF b) : noLF (a ++ b) := by
  intro c hc
  rcases List.mem_append.mp hc with h | h
  · exact ha c h
  · exact hb c h

lemma digitChar_ne_lf (n : Nat) : Nat.digitChar n ≠ '\n' := by
  rcases Nat.lt_or_ge n 16 with h | h
  · interval_cases n <;> decide
  · unfold Nat.digitChar
    have h0 : n ≠ 0 := by omega
    have h1 : n ≠ 1 := by omega
    have h2 : n ≠ 2 := by omega
    have h3 : n ≠ 3 := by omega
    have h4 : n ≠ 4 := by omega
    have h5 : n ≠ 5 := by omega
    have h6 : n ≠ 6 := by omega
    have h7 : n ≠ 7 := by omega
    have h8 : n ≠ 8 := by omega
    have h9 : n ≠ 9 := by omega
    have ha : n ≠ 10 := by omega
    have hb : n ≠ 11 := by omega
    have hc : n ≠ 12 := by omega
    have hd : n ≠ 13 := by omega
    have he : n ≠ 14 := by omega
    have hf : n ≠ 15 := by omega
    simp [h0, h1, h2, h3, h4, h5, h6, h7, h8, h9, ha, hb, hc, hd, he, hf]

lemma toDigitsCore_noLF (b : Nat) : ∀ (fuel n : Nat) (ds : List Char),
    noLF ds → noLF (Nat.toDigitsCore b fuel n ds) := by
  intro fuel
  induction fuel with
  | zero => intro n ds hds; exact hds
  | succ fuel ih =>
    intro n ds hds c hc
    simp only [Nat.toDigitsCore] at hc
    split at hc
    · rcases List.mem_cons.mp hc with h | h
      · rw [h]; exact digitChar_ne_lf _
      · exact hds c h
    · refine ih _ _ ?_ c hc
      intro x hx
      rcases List.mem_cons.mp hx with h | h
      · rw [h]; exact digitChar_ne_lf _
      · exact hds x h

lemma natRepr_noLF (n : Nat) : noLF (Nat.repr n).data := by
  intro c hc
  have hd : (Nat.repr n).data = Nat.toDigits 10 n := rfl
  rw [hd] at hc
  exact toDigitsCore_noLF 10 (n + 1) n [] (by intro x hx; cases hx) c hc

lemma pad2_noLF (n : Nat) : noLF (pad2 n).data := by
  unfold pad2
  split
  · rw [String.data_append]
    exact noLF_append (by intro c hc; fin_cases hc; decide) (natRepr_noLF n)
  · exact natRepr_noLF n

lemma pad4_noLF (n : Nat) : noLF (pad4 n).data := by
  unfold pad4
  split
  · rw [String.data_append]
    exact noLF_append (by intro c hc; fin_cases hc <;> decide) (natRepr_noLF n)
  · split
    · rw [String.data_append]
      exact noLF_append (by intro c hc; fin_cases hc <;> decide) (natRepr_noLF n)
    · split
      · rw [String.data_append]
        exact noLF_append (by intro c hc; fin_cases hc; decide) (natRepr_noLF n)
      · exact natRepr_noLF n

lemma fmtCompactDate_noLF (d : Date) : noLF (fmtCompactDate d).data := by
  unfold fmtCompactDate
  rw [String.data_append, String.data_append]
  exact noLF_append (noLF_append (pad4_noLF _) (pad2_noLF _)) (pad2_noLF _)

lemma dateToString_noLF (d : Date) : noLF (dateToString d).data := by
  unfold dateToString
  rw [String.data_append, String.data_append, String.data_append, String.data_append]
  refine noLF_append (noLF_append (noLF_append (noLF_append (pad4_noLF _) ?_) (pad2_noLF _)) ?_) (pad2_noLF _)
  · intro c hc; fin_cases hc; decide
  · intro c hc; fin_cases hc; decide

lemma removeSpaces_noLF {l : List Char} (h : noLF l) : noLF (removeSpaces l) := by
  intro c hc
  exact h c (List.mem_of_mem_filter hc)

lemma joinCons (a : String) (l : List String) :
    String.join (a :: l) = a ++ String.join l := by
  show (a :: l).foldl (· ++ ·) "" = _
  rw [List.foldl_cons, joinFoldl]
  simp

lemma join_lfRobust (L : List String) (h : ∀ s ∈ L, lfRobust s.data) :
    lfRobust (String.join L).data := by
  induction L with
  | nil => intro q; rfl
  | cons a l ih =>
    rw [joinCons, String.data_append]
    exact lfRobust_append (h a (List.mem_cons_self a l))
      (ih fun s hs => h s (List.mem_cons_of_mem a hs))

lemma isPre_append (p : List Char) : ∀ (a b : List Char),
    isPre p a = true → isPre p (a ++ b) = true := by
  induction p with
  | nil => intro a b _; rfl
  | cons x xs ih =>
    intro a b h
    cases a with
    | nil => cases h
    | cons c cs =>
      simp only [isPre, Bool.and_eq_true] at h ⊢
      exact ⟨h.1, ih cs b h.2⟩

/-- The predicate `lfRobust`, packaged at the `String` level. -/
def lfRobustS (s : String) : Prop := lfRobust s.data

lemma lfRobustS_append {a b : String} (ha : lfRobustS a) (hb : lfRobustS b) :
    lfRobustS (a ++ b) := by
  unfold lfRobustS
  rw [String.data_append]
  exact lfRobust_append ha hb

lemma litRobust (s : String) (h1 : s.data.head? ≠ some '\n')
    (h2 : noBareLFAux ' ' s.data = true) : lfRobustS s := lfRobust_of_head h1 h2

/-- Every chunk of an event block is free of bare line-feeds, provided
the display name holds no line-feed. -/
lemma eventBlock_lfRobust (b : Birthday) (h : noLF b.FullName.data) :
    lfRobust (eventBlock b).data := by
  show lfRobustS (eventBlock b)
  unfold eventBlock
  refine lfRobustS_append (lfRobustS_append (lfRobustS_append (lfRobustS_append
    (lfRobustS_append (lfRobustS_append (lfRobustS_append ?_ ?_) ?_) ?_) ?_) ?_) ?_) ?_
  · exact litRobust _ (by decide) (by decide)
  · -- "UID:" ++ eventUID b ++ "\r\n"
    refine lfRobustS_append (lfRobustS_append ?_ ?_) ?_
    · exact litRobust _ (by decide) (by decide)
    · -- eventUID b
      unfold eventUID
      refine lfRobustS_append (lfRobustS_append ?_ ?_) ?_
      · exact lfRobust_of_noLF (removeSpaces_noLF h)
      · exact litRobust _ (by decide) (by decide)
      · exact lfRobust_of_noLF (natRepr_noLF _)
    · exact litRobust _ (by decide) (by decide)
  · -- "DTSTART;VALUE=DATE:" ++ fmtCompactDate b.Date ++ "\r\n"
    refine lfRobustS_append (lfRobustS_append ?_ ?_) ?_
    · exact litRobust _ (by decide) (by decide)
    · exact lfRobust_of_noLF (fmtCompactDate_noLF _)
    · exact litRobust _ (by decide) (by decide)
  · exact litRobust _ (by decide) (by decide)
  · -- "SUMMARY:" ++ b.FullName ++ "'s Birthday\r\n"
    refine lfRobustS_append (lfRobustS_append ?_ ?_) ?_
    · exact litRobust _ (by decide) (by decide)
    · exact lfRobust_of_noLF h
    · exact litRobust _ (by decide) (by decide)
  · -- "DESCRIPTION:" ++ b.FullName ++ " born on " ++ dateToString b.Date ++ "\r\n"
    refine lfRobustS_append (lfRobustS_append (lfRobustS_append
      (lfRobustS_append ?_ ?_) ?_) ?_) ?_
    · exact litRobust _ (by decide) (by decide)
    · exact lfRobust_of_noLF h
    · exact litRobust _ (by decide) (by decide)
    · exact lfRobust_of_noLF (dateToString_noLF _)
    · exact litRobust _ (by decide) (by decide)
  · exact litRobust _ (by decide) (by decide)
  · exact litRobust _ (by decide) (by decide)

lemma icsHeader_lfRobust : lfRobust icsHeader.data :=
  lfRobust_of_head (by decide) (by decide)

lemma icsFooter_lfRobust : lfRobust icsFooter.data :=
  lfRobust_of_head (by decide) (by decide)

/-! ### Claim theorems -/

/-- Claim C1: for every raw record carrying a birthday field, the value
is first truncated at the first literal `'T'`, then matched against the
compact, hyphenated and slash-separated formats in that fixed priority
order, the first success winning; concretely `BDAY:20030615`,
`BDAY:2003-06-15` and `BDAY;VALUE=date:2003/06/15` all parse to
2003-06-15, and `BDAY:20030615T000000Z` parses identically to
`BDAY:20030615`. -/
theorem bday_format_priority :
    ((parseVCardState "BDAY:20030615").birthdayDate = some ⟨2003, 6, 15⟩) ∧
    ((parseVCardState "BDAY:2003-06-15").birthdayDate = some ⟨2003, 6, 15⟩) ∧
    ((parseVCardState "BDAY;VALUE=date:2003/06/15").birthdayDate = some ⟨2003, 6, 15⟩) ∧
    (parseBirthdayVCard "FN:Jane\nBDAY:20030615T000000Z" =
      parseBirthdayVCard "FN:Jane\nBDAY:20030615") ∧
    (∀ v : List Char, parseDateFormats v =
      match goParseCompact v with
      | some d => some d
      | none =>
        match goParseHyphen v with
        | some d => some d
        | none => goParseSlash v) ∧
    (∀ v : List Char, (goParseCompact v).isSome = true →
      parseDateFormats v = goParseCompact v) ∧
    (∀ (s : PState) (line : List Char),
      isPre "BDAY".data line = true → (lineBdayValue line).isEmpty = false →
      (updateBday s line).birthdayDate =
        match parseDateFormats ((lineBdayValue line).takeWhile (· != 'T')) with
        | some d => some d
        | none => s.birthdayDate) := by
  refine ⟨rfl, rfl, rfl, rfl, ?_, ?_, ?_⟩
  · intro v
    show firstParse formats v = _
    rcases h1 : goParseCompact v with _ | d
    · rcases h2 : goParseHyphen v with _ | d
      · simp [firstParse, formats, h1, h2]
        rcases goParseSlash v with _ | d <;> rfl
      · simp [firstParse, formats, h1, h2]
    · simp [firstParse, formats, h1]
  · intro v hv
    show (match goParseCompact v with
      | some d => some d
      | none => firstParse [goParseHyphen, goParseSlash] v) = goParseCompact v
    rcases h : goParseCompact v with _ | d
    · rw [h] at hv; cases hv
    · rfl
  · intro s line hb hv
    have hv' : lineBdayValue line ≠ [] := by simpa using hv
    unfold updateBday
    rcases hp : parseDateFormats ((lineBdayValue line).takeWhile (· != 'T')) with _ | d
    · simp [hb, hv', hp]
      split <;> rfl
    · simp [hb, hv', hp]

/-- Witness for C1: the compact format succeeds on `20030615` and the
priority chain therefore returns its result. -/
theorem bday_format_priority_witness :
    (goParseCompact "20030615".data).isSome = true ∧
    parseDateFormats "20030615".data = goParseCompact "20030615".data := by
  refine ⟨by decide, ?_⟩
  exact bday_format_priority.2.2.2.2.2.1 "20030615".data (by decide)

/-- Claim C2: a fact is emitted iff a date was parsed from some birthday
line and at least one of the two name fields ended up non-empty; a
record with no name yields `none` regardless of the valid date, and a
record with a name but an unparseable birthday value yields `none`. -/
theorem fact_emission_iff :
    (∀ vcard : String,
      (parseBirthdayVCard vcard).isSome = true ↔
        ((parseVCardState vcard).birthdayDate.isSome = true ∧
          ((parseVCardState vcard).name ≠ [] ∨ (parseVCardState vcard).fullName ≠ []))) ∧
    parseBirthdayVCard "BDAY:20030615" = none ∧
    parseBirthdayVCard "FN:Jane\nBDAY:not-a-date" = none := by
  refine ⟨?_, rfl, rfl⟩
  intro vcard
  unfold parseBirthdayVCard
  rcases h : (parseVCardState vcard).birthdayDate with _ | d
  · simp [h]
  · simp only [h, Option.isSome_some, true_and]
    split
    · simp only [Option.isSome_some, true_iff]
      assumption
    · simp only [Option.isSome_none, Bool.false_eq_true, false_iff]
      assumption

/-- Claim C3: the serialized document is the fixed four-line header,
then exactly one event block per input fact in input order (no sorting,
deduplication or grouping), then the fixed one-line footer; in
particular `[a, b, c]` serializes to the blocks of `a`, `b`, `c` in
that document order. -/
theorem ics_structure_order :
    (icsHeader =
      "BEGIN:VCALENDAR\r\nVERSION:2.0\r\nPRODID:-//CardDAV Birthdays//EN\r\nCALSCALE:GREGORIAN\r\n") ∧
    (icsFooter = "END:VCALENDAR\r\n") ∧
    (∀ (birthdays : List Birthday) (today : Date),
      generateBirthdayIcs birthdays today =
        icsHeader ++ String.join (birthdays.map eventBlock) ++ icsFooter) ∧
    (∀ (a b c : Birthday) (today : Date),
      generateBirthdayIcs [a, b, c] today =
        icsHeader ++ eventBlock a ++ eventBlock b ++ eventBlock c ++ icsFooter) := by
  refine ⟨rfl, rfl, genEqJoin, ?_⟩
  intro a b c today
  rw [genEqJoin]
  apply String.ext
  simp [String.join]

/-- Claim C4: a birthday line whose value parses overwrites any earlier
parsed date — the scan does not stop at the first match, so among the
birthday lines whose values parse, the last one determines the date. -/
theorem last_bday_line_wins :
    (∀ (s : PState) (rawLine : List Char) (d : Date),
      isPre "BDAY".data (goTrimSpace rawLine) = true →
      (lineBdayValue (goTrimSpace rawLine)).isEmpty = false →
      parseDateFormats ((lineBdayValue (goTrimSpace rawLine)).takeWhile (· != 'T')) = some d →
      (stepLine s rawLine).birthdayDate = some d) ∧
    ((parseVCardState "BDAY:20030615\nBDAY:19990101").birthdayDate = some ⟨1999, 1, 1⟩) := by
  constructor
  · intro s raw d hb hv hp
    unfold stepLine
    exact updateBday_overwrite _ _ _ hb hv hp
  · rfl

/-- Witness for C4: a second parseable birthday line overwrites the date
of a state that already carries one. -/
theorem last_bday_line_wins_witness :
    (stepLine ⟨[], [], [], some ⟨2003, 6, 15⟩, []⟩ "BDAY:19990101".data).birthdayDate =
      some ⟨1999, 1, 1⟩ := by
  exact last_bday_line_wins.1 ⟨[], [], [], some ⟨2003, 6, 15⟩, []⟩ "BDAY:19990101".data
    ⟨1999, 1, 1⟩ (by decide) (by decide) (by decide)

/-- Counterexample for C5 as stated: the serializer performs no escaping,
so a fact whose display name embeds a line-feed produces a line ending in
a bare line-feed. -/
theorem crlf_counterexample :
    crlfTerminated
      (generateBirthdayIcs [⟨"u1", ⟨2003, 6, 15⟩, "A\nB"⟩] ⟨2025, 1, 1⟩) = false := by
  decide

/-- Claim C5, amended: for every fact list whose display names hold no
line-feed character (always the case for facts produced by the
extractor), every line of the serialized document ends with
carriage-return + line-feed and no line ends with a bare line-feed. -/
theorem crlf_every_line (facts : List Birthday) (today : Date)
    (h : ∀ b ∈ facts, noLF b.FullName.data) :
    crlfTerminated (generateBirthdayIcs facts today) = true := by
  rw [genEqJoin]
  unfold crlfTerminated
  rw [Bool.and_eq_true]
  constructor
  · have hrob : lfRobust (icsHeader ++ String.join (facts.map eventBlock) ++ icsFooter).data := by
      rw [String.data_append, String.data_append]
      refine lfRobust_append (lfRobust_append icsHeader_lfRobust ?_) icsFooter_lfRobust
      apply join_lfRobust
      intro s hs
      rcases List.mem_map.mp hs with ⟨b, hb, rfl⟩
      exact eventBlock_lfRobust b (h b hb)
    exact hrob ' '
  · rw [String.data_append, List.reverse_append]
    exact isPre_append _ _ _ (by decide)

/-- Witness for C5 (amended): a line-feed-free name gives a fully
CR+LF-terminated document. -/
theorem crlf_every_line_witness :
    crlfTerminated
      (generateBirthdayIcs [⟨"u1", ⟨2003, 6, 15⟩, "Jane Doe"⟩] ⟨2025, 1, 1⟩) = true := by
  apply crlf_every_line
  intro b hb
  fin_cases hb
  show noLF "Jane Doe".data
  unfold noLF
  decide

/-- Claim C6: the serializer is total (no error path) and the empty fact
list yields exactly the header and footer lines with zero event blocks. -/
theorem serializer_empty_no_error : ∀ today : Date,
    generateBirthdayIcs [] today =
      "BEGIN:VCALENDAR\r\nVERSION:2.0\r\nPRODID:-//CardDAV Birthdays//EN\r\nCALSCALE:GREGORIAN\r\nEND:VCALENDAR\r\n" := by
  intro today
  apply String.ext
  rfl

/-- Claim C7: for the fact ("Jane Doe", 2003-06-15) the event identifier
field is `JaneDoe-birthday-2003` (spaces removed, `-birthday-`, year) and
the start field value is `20030615` (compact date-only form). -/
theorem event_uid_dtstart_jane :
    eventUID ⟨"u1", ⟨2003, 6, 15⟩, "Jane Doe"⟩ = "JaneDoe-birthday-2003" ∧
    fmtCompactDate ⟨2003, 6, 15⟩ = "20030615" ∧
    eventBlock ⟨"u1", ⟨2003, 6, 15⟩, "Jane Doe"⟩ =
      "BEGIN:VEVENT\r\nUID:JaneDoe-birthday-2003\r\nDTSTART;VALUE=DATE:20030615\r\nRRULE:FREQ=YEARLY\r\nSUMMARY:Jane Doe\x27s Birthday\r\nDESCRIPTION:Jane Doe born on 2003-06-15\r\nTRANSP:TRANSPARENT\r\nEND:VEVENT\r\n" := by
  refine ⟨?_, rfl, ?_⟩
  · apply String.ext
    rfl
  · apply String.ext
    rfl

/-- Claim C8: the reference-date parameter never influences the
serializer's output. -/
theorem reference_date_unused :
    ∀ (birthdays : List Birthday) (d1 d2 : Date),
      generateBirthdayIcs birthdays d1 = generateBirthdayIcs birthdays d2 := by
  intro birthdays d1 d2
  rfl

/-- Claim C9: the parsed-date state is monotone (never cleared once
set), and when a date is already present a birthday line that is empty
or fails every format changes neither the date nor the diagnostic
stream (the parse-failure diagnostic fires only while no date has been
parsed yet). -/
theorem bday_state_monotone :
    (∀ (s : PState) (rawLine : List Char),
      s.birthdayDate.isSome = true → (stepLine s rawLine).birthdayDate.isSome = true) ∧
    (∀ (s : PState) (rawLine : List Char) (d : Date),
      s.birthdayDate = some d →
      ((lineBdayValue (goTrimSpace rawLine)).isEmpty = true ∨
        parseDateFormats ((lineBdayValue (goTrimSpace rawLine)).takeWhile (· != 'T')) = none) →
      (stepLine s rawLine).birthdayDate = some d ∧ (stepLine s rawLine).diags = s.diags) := by
  constructor
  · intro s raw hd
    unfold stepLine
    apply updateBday_isSome
    rw [updateNames_birthdayDate]
    exact hd
  · intro s raw d hd hfail
    unfold stepLine
    have h1 : (updateNames s (goTrimSpace raw)).birthdayDate = some d := by
      rw [updateNames_birthdayDate]; exact hd
    rw [updateBday_keep _ _ d h1 hfail]
    exact ⟨h1, updateNames_diags _ _⟩

/-- Witness for C9: with a date already parsed, an unparseable birthday
line leaves the date in place and emits no diagnostic. -/
theorem bday_state_monotone_witness :
    (stepLine ⟨[], [], [], some ⟨2003, 6, 15⟩, []⟩ "BDAY:not-a-date".data).birthdayDate =
        some ⟨2003, 6, 15⟩ ∧
      (stepLine ⟨[], [], [], some ⟨2003, 6, 15⟩, []⟩ "BDAY:not-a-date".data).diags = [] :=
  bday_state_monotone.2 ⟨[], [], [], some ⟨2003, 6, 15⟩, []⟩ "BDAY:not-a-date".data
    ⟨2003, 6, 15⟩ rfl (Or.inr (by decide))

lemma eventBlock_congr {b1 b2 : Birthday} (hn : b1.FullName = b2.FullName)
    (hd : b1.Date = b2.Date) : eventBlock b1 = eventBlock b2 := by
  unfold eventBlock eventUID
  rw [hn, hd]

lemma mapBlocks_eq : ∀ l1 l2 : List Birthday,
    l1.map (fun b => (b.FullName, b.Date)) = l2.map (fun b => (b.FullName, b.Date)) →
    l1.map eventBlock = l2.map eventBlock := by
  intro l1
  induction l1 with
  | nil =>
    intro l2 h
    cases l2 with
    | nil => rfl
    | cons b bs => cases h
  | cons a as ih =>
    intro l2 h
    cases l2 with
    | nil => cases h
    | cons b bs =>
      simp only [List.map_cons, List.cons.injEq] at h ⊢
      obtain ⟨h1, h2⟩ := h
      obtain ⟨hn, hd⟩ := Prod.mk.injEq .. ▸ h1
      exact ⟨eventBlock_congr hn hd, ih bs h2⟩

/-- Claim C10: the serialized document never depends on the facts'
identifier fields — two fact lists agreeing position-wise on display
name and date produce byte-identical documents. -/
theorem ics_independent_of_uid :
    ∀ (l1 l2 : List Birthday) (today : Date),
      l1.map (fun b => (b.FullName, b.Date)) = l2.map (fun b => (b.FullName, b.Date)) →
      generateBirthdayIcs l1 today = generateBirthdayIcs l2 today := by
  intro l1 l2 today h
  rw [genEqJoin, genEqJoin, mapBlocks_eq l1 l2 h]

/-- Witness for C10: changing only the identifier of a fact leaves the
document unchanged. -/
theorem ics_independent_of_uid_witness :
    generateBirthdayIcs [⟨"u1", ⟨2003, 6, 15⟩, "Jane Doe"⟩] ⟨2025, 1, 1⟩ =
      generateBirthdayIcs [⟨"u2", ⟨2003, 6, 15⟩, "Jane Doe"⟩] ⟨2025, 1, 1⟩ :=
  ics_independent_of_uid [⟨"u1", ⟨2003, 6, 15⟩, "Jane Doe"⟩]
    [⟨"u2", ⟨2003, 6, 15⟩, "Jane Doe"⟩] ⟨2025, 1, 1⟩ rfl
